import Mathlib

/-!
Verification of the PDDB page-table backend of xous-core
(`services/pddb/src/backend/pagetable.rs`) against its natural-language
specification.  On-flash record layouts (`Pte`, `ReversePte`,
`PageTableInFlash`, `EncryptedPage`) and the `PtFlags` bitflags are embedded
from the source file; the AEAD page codec, the PTE codec and the
make-before-break (MBBB) mount logic are not part of the given sources, so
they are modelled from the specification, as marked on each definition.
-/

namespace Pddb

/-- Modelled from the spec: `PAGE_SIZE` is imported by the source file from
`super::PAGE_SIZE`, which is outside the given sources.  The spec fixes a
fixed-size page, "(PAGE_SIZE, e.g. 4096-byte)". -/
def PAGE_SIZE : Nat := 4096

/-- Little-endian byte serialization of a natural number into `w` bytes. -/
def bytesLE : Nat → Nat → List Nat
  | 0, _ => []
  | w + 1, n => n % 256 :: bytesLE w (n / 256)

/-- Read back a little-endian byte list as a natural number. -/
def fromBytesLE (l : List Nat) : Nat :=
  l.foldr (fun b acc => b + 256 * acc) 0

/-! ## `PtFlags` (bitflags, `pagetable.rs` lines 9-22)

The `bitflags!` block declares exactly two constants:
`LOCKED = 0b0000_0000` and `CLEAN = 0b0000_0001`.  The `Default` impl
returns `PtFlags::UNINITIALIZED`, a constant the block does not declare. -/

namespace PtFlags

/-- `LOCKED`: "Pages that don't decrypt properly are marked as LOCKED in the
cache."  Declared as the all-zero bit pattern `0b0000_0000`. -/
def LOCKED : Nat := 0

/-- `CLEAN`: "set for records that are synced to the copy in Flash."
Declared as `0b0000_0001`. -/
def CLEAN : Nat := 1

/-- The constants declared inside the `bitflags!` block for `PtFlags`,
in declaration order, with their bit patterns. -/
def constants : List (String × Nat) := [("LOCKED", LOCKED), ("CLEAN", CLEAN)]

/-- Look up a flag constant of `PtFlags` by its name. -/
def lookup (s : String) : Option Nat :=
  (constants.find? (fun c => c.1 = s)).map Prod.snd

/-- `bitflags::contains`: all bits of `c` are present in `f`
(`f & c == c`). -/
def contains (f c : Nat) : Bool := f &&& c == c

/-- The empty flag set of a `bitflags` type is the all-zero bit pattern. -/
def emptyFlags : Nat := 0

end PtFlags

/-! ## `Pte` (`pagetable.rs` lines 35-48)

`#[repr(C, packed)]` struct with fields, in order: `pddb_addr: [u8; 6]`,
`flags: u8`, `reserved: u8`, `nonce: [u8; 4]`, `checksum: [u8; 4]`.
Field values are modelled as natural numbers below their width bound;
`serialize` is the packed little-endian byte image. -/

structure Pte where
  pddb_addr : Nat
  flags : Nat
  reserved : Nat
  nonce : Nat
  checksum : Nat
deriving DecidableEq

namespace Pte

/-- The fields of the `Pte` struct in declaration order, with their widths
in bytes, exactly as written in the source. -/
def fields : List (String × Nat) :=
  [("pddb_addr", 6), ("flags", 1), ("reserved", 1), ("nonce", 4), ("checksum", 4)]

/-- Packed byte image of a `Pte`: `repr(C, packed)` lays the fields out
back-to-back with no padding. -/
def serialize (p : Pte) : List Nat :=
  bytesLE 6 p.pddb_addr ++ bytesLE 1 p.flags ++ bytesLE 1 p.reserved ++
    bytesLE 4 p.nonce ++ bytesLE 4 p.checksum

end Pte

/-- Modelled from the spec: the weak 32-bit checksum of a PTE.  The source
comment fixes its argument list — "checksum is computed on all of the bits
prior, so checksum(pddb_addr, flags, nonce)" — but the checksum function
itself is outside the given sources; a simple byte-wise accumulator over
exactly those three fields stands in for it. -/
def checksumOf (addr flags nonce : Nat) : Nat :=
  ((bytesLE 6 addr ++ bytesLE 1 flags ++ bytesLE 4 nonce).foldl
    (fun acc b => acc * 257 + b + 1) 0) % 2 ^ 32

/-! ## `PageTableInFlash` (`pagetable.rs` lines 58-69) -/

/-- `PDDB_SIZE_PAGES = xous::PDDB_LEN as usize / PAGE_SIZE`.  `PDDB_LEN` is
declared in the `xous` crate outside the given sources, so the region size
is kept as a parameter. -/
def PDDB_SIZE_PAGES (pddbLen : Nat) : Nat := pddbLen / PAGE_SIZE

/-- Packed byte image of `PageTableInFlash`: the `table: [Pte; PDDB_SIZE_PAGES]`
array, one serialized `Pte` slot per physical page index, back to back. -/
def pageTableSerialize (pddbLen : Nat) (table : Nat → Pte) : List Nat :=
  (List.range (PDDB_SIZE_PAGES pddbLen)).flatMap (fun i => Pte.serialize (table i))

/-! ## `EncryptedPage` (`pagetable.rs` lines 74-83) -/

namespace EncryptedPage

/-- The fields of the `EncryptedPage` struct in declaration order, with their
widths in bytes, exactly as written in the source:
`p_nonce: [u8; 12]`, `journal_rev: [u8; 4]`,
`data: [u8; (PAGE_SIZE - 12 - 16 - 4)]`, `p_tag: [u8; 16]`. -/
def fields : List (String × Nat) :=
  [("p_nonce", 12), ("journal_rev", 4), ("data", PAGE_SIZE - 12 - 16 - 4), ("p_tag", 16)]

/-- Byte offset of a field of `EncryptedPage`: the sum of the widths of the
fields declared before it. -/
def offsetOf (s : String) : Nat :=
  ((fields.takeWhile (fun c => c.1 ≠ s)).map Prod.snd).sum

end EncryptedPage

/-- Width in bytes of a named field in a field-layout list. -/
def fieldWidth (fs : List (String × Nat)) (s : String) : Option Nat :=
  (fs.find? (fun c => c.1 = s)).map Prod.snd

/-! ## AEAD page codec (modelled from the spec, §4.1)

The codec implementation (`encrypt`/`decrypt`) is not among the given
sources; only the `EncryptedPage` layout is.  A symbolic stream cipher with
a recomputed tag stands in for the AEAD scheme: the keystream plays the
role of the cipher, and the tag binds the key, the physical slot index
(associated data), the nonce, the journal revision and the payload. -/

/-- Modelled from the spec: per-byte keystream of the page codec, a function
of the basis key and the record nonce. -/
def ks (key nonce i : Nat) : Nat := (key * 31 + nonce * 17 + i * 7 + 3) % 256

/-- Modelled from the spec: keystream word used to encrypt the 32-bit
journal revision counter. -/
def ksRev (key nonce : Nat) : Nat := (key * 131 + nonce * 137 + 5) % 2 ^ 32

/-- Byte-wise stream encryption starting at stream position `i`. -/
def encWith (f : Nat → Nat) : Nat → List Nat → List Nat
  | _, [] => []
  | i, b :: bs => (b + f i) % 256 :: encWith f (i + 1) bs

/-- Byte-wise stream decryption starting at stream position `i`. -/
def decWith (f : Nat → Nat) : Nat → List Nat → List Nat
  | _, [] => []
  | i, c :: cs => (c + 256 - f i % 256) % 256 :: decWith f (i + 1) cs

/-- Modelled from the spec: the 128-bit authentication tag, binding the key,
the physical slot index (associated data), the nonce, the journal revision
and the plaintext payload. -/
def tagOf (key slot nonce rev : Nat) (pt : List Nat) : Nat :=
  (pt.foldl (fun acc b => acc * 257 + b + 1)
    (key * 3 + slot * 5 + nonce * 7 + rev * 11 + 13)) % 2 ^ 128

/-- Modelled from the spec: the single, undifferentiated failure value of the
page codec — "fails uniformly (no distinguishable error modes)". -/
inductive AuthFailure where
  | authFailure
deriving DecidableEq

/-- In-memory form of one Encrypted Page Record as handled by the codec:
plaintext-visible nonce, encrypted journal revision, encrypted payload,
authentication tag (mirroring the `EncryptedPage` field order). -/
structure EncryptedPageRecord where
  p_nonce : Nat
  journal_rev_ct : Nat
  data_ct : List Nat
  p_tag : Nat
deriving DecidableEq

/-- Modelled from the spec: `encrypt(plaintext, key, slot_index)` — seals
`{journal_rev, plaintext}` under the basis key, binding the physical slot
index as associated data.  The fresh random nonce is an explicit argument
(randomness is external to the model). -/
def encrypt (pt : List Nat) (rev key slot nonce : Nat) : EncryptedPageRecord :=
  { p_nonce := nonce
    journal_rev_ct := (rev + ksRev key nonce) % 2 ^ 32
    data_ct := encWith (ks key nonce) 0 pt
    p_tag := tagOf key slot nonce rev pt }

/-- Authentication check of `decrypt`: recompute the tag from the decrypted
payload and journal revision and compare with the stored tag. -/
def authOk (r : EncryptedPageRecord) (key slot : Nat) : Bool :=
  r.p_tag ==
    tagOf key slot r.p_nonce
      ((r.journal_rev_ct + 2 ^ 32 - ksRev key r.p_nonce) % 2 ^ 32)
      (decWith (ks key r.p_nonce) 0 r.data_ct)

/-- Modelled from the spec: `decrypt(record, key, slot_index)` — returns the
plaintext and journal revision on authenticated success and the single
error `AuthFailure` otherwise. -/
def decrypt (r : EncryptedPageRecord) (key slot : Nat) :
    Except AuthFailure (List Nat × Nat) :=
  if authOk r key slot then
    Except.ok (decWith (ks key r.p_nonce) 0 r.data_ct,
      (r.journal_rev_ct + 2 ^ 32 - ksRev key r.p_nonce) % 2 ^ 32)
  else Except.error AuthFailure.authFailure

/-! ## PTE codec (modelled from the spec, §4.2) -/

/-- Modelled from the spec: per-byte keystream of the PTE codec, a function
of the table-wide key and the physical slot index (associated data). -/
def pteKs (key slot i : Nat) : Nat := (key * 151 + slot * 163 + i * 7 + 11) % 256

/-- Parse 16 plaintext bytes into a `Pte` following the packed field layout. -/
def parsePte (bytes : List Nat) : Pte :=
  { pddb_addr := fromBytesLE (bytes.take 6)
    flags := fromBytesLE ((bytes.drop 6).take 1)
    reserved := fromBytesLE ((bytes.drop 7).take 1)
    nonce := fromBytesLE ((bytes.drop 8).take 4)
    checksum := fromBytesLE ((bytes.drop 12).take 4) }

/-- Modelled from the spec: `encode(virtual_addr, flags, nonce)` — packs the
plaintext fields, computes the weak checksum over them, and encrypts the
fixed-width record under the table key with the slot index bound. -/
def pteEncode (addr flags nonce key slot : Nat) : List Nat :=
  encWith (pteKs key slot) 0
    (Pte.serialize
      { pddb_addr := addr, flags := flags, reserved := 0, nonce := nonce,
        checksum := checksumOf addr flags nonce })

/-- Authentication check of `pteDecode`: a ciphertext slot passes when it has
the exact slot width and its decrypted checksum field matches the checksum
recomputed over `{pddb_addr, flags, nonce}`. -/
def pteAuthOk (ct : List Nat) (key slot : Nat) : Bool :=
  ct.length == 16 &&
    (let p := parsePte (decWith (pteKs key slot) 0 ct)
     p.checksum == checksumOf p.pddb_addr p.flags p.nonce)

/-- Modelled from the spec: `decode(ciphertext, candidate_key)` — attempts
decryption and returns `none` on checksum or authentication mismatch. -/
def pteDecode (ct : List Nat) (key slot : Nat) : Option Pte :=
  if pteAuthOk ct key slot then some (parsePte (decWith (pteKs key slot) 0 ct))
  else none

/-! ## MBBB mount-time adoption (modelled from the spec, §4.5) -/

/-- Modelled from the spec: the observable state of one flash record region
(table entry or staged copy) after an arbitrary power loss.  `valid pt rev`
is a fully-written record holding plaintext `pt` at journal revision `rev`;
`torn` is a missing or partially-written record.  Authentication is perfect
in this model: a torn record never authenticates. -/
inductive FlashRec where
  | valid (pt : List Nat) (rev : Nat)
  | torn
deriving DecidableEq

/-- The flash regions deciding one virtual address at mount: the page-table
record and the MBBB staging record. -/
structure MbbbFlash where
  table : FlashRec
  staging : FlashRec
deriving DecidableEq

/-- Modelled from the spec: authenticated decode of a flash record — "any
staged copy that fails authentication (partial write) is discarded". -/
def authDecodeRec : FlashRec → Option (List Nat × Nat)
  | FlashRec.valid pt rev => some (pt, rev)
  | FlashRec.torn => none

/-- Modelled from the spec: mount-time resolution — "for every slot with a
valid staged copy whose journal revision strictly exceeds the current
table's recorded revision, the staged copy is adopted"; authority is decided
purely by authenticated revision comparison. -/
def mountResolve (f : MbbbFlash) : Option (List Nat × Nat) :=
  match authDecodeRec f.staging, authDecodeRec f.table with
  | some s, some t => if t.2 < s.2 then some s else some t
  | some s, none => some s
  | none, some t => some t
  | none, none => none

/-- Modelled from the spec: the flash states reachable by losing power at
each point between the start of the `Staged` write and the completion of the
`Adopting` transition — mid staged write (torn staging), staged write
complete, mid table rewrite (torn table), and adoption complete. -/
def crashStates (ptOld : List Nat) (revOld : Nat) (ptNew : List Nat)
    (revNew : Nat) : List MbbbFlash :=
  [ { table := FlashRec.valid ptOld revOld, staging := FlashRec.torn },
    { table := FlashRec.valid ptOld revOld, staging := FlashRec.valid ptNew revNew },
    { table := FlashRec.torn, staging := FlashRec.valid ptNew revNew },
    { table := FlashRec.valid ptNew revNew, staging := FlashRec.valid ptNew revNew } ]

/-! ## Helper lemmas -/

theorem bytesLE_length (w n : Nat) : (bytesLE w n).length = w := by
  induction w generalizing n with
  | zero => rfl
  | succ w ih => simp [bytesLE, ih]

theorem decWith_encWith (f : Nat → Nat) (i : Nat) (l : List Nat)
    (h : ∀ b ∈ l, b < 256) : decWith f i (encWith f i l) = l := by
  induction l generalizing i with
  | nil => rfl
  | cons b bs ih =>
    have hb : b < 256 := h b (by simp)
    have hbs : ∀ x ∈ bs, x < 256 := fun x hx => h x (List.mem_cons_of_mem _ hx)
    simp only [encWith, decWith]
    refine List.cons_eq_cons.mpr ⟨by omega, ih (i + 1) hbs⟩

theorem bytesLE_lt (w n : Nat) : ∀ b ∈ bytesLE w n, b < 256 := by
  induction w generalizing n with
  | zero => simp [bytesLE]
  | succ w ih =>
    intro b hb
    simp only [bytesLE, List.mem_cons] at hb
    rcases hb with rfl | hb
    · exact Nat.mod_lt _ (by norm_num)
    · exact ih _ b hb

theorem serialize_bytes_lt (p : Pte) : ∀ b ∈ Pte.serialize p, b < 256 := by
  intro b hb
  simp only [Pte.serialize, List.mem_append] at hb
  rcases hb with (((h | h) | h) | h) | h <;> exact bytesLE_lt _ _ b h

theorem pte_serialize_length (p : Pte) : (Pte.serialize p).length = 16 := by
  simp [Pte.serialize, bytesLE_length]

theorem flatMap_range'_length (f : Nat → List Nat) (w : Nat)
    (hw : ∀ i, (f i).length = w) :
    ∀ n k, ((List.range' k n).flatMap f).length = n * w := by
  intro n
  induction n with
  | zero => intro k; simp [List.range']
  | succ n ih =>
    intro k
    simp only [List.range', List.flatMap_cons, List.length_append, hw, ih]
    ring

theorem flatMap_range'_slice (f : Nat → List Nat) (w : Nat)
    (hw : ∀ i, (f i).length = w) :
    ∀ n k i, i < n →
      (((List.range' k n).flatMap f).drop (w * i)).take w = f (k + i) := by
  intro n
  induction n with
  | zero => intro k i h; exact absurd h (Nat.not_lt_zero i)
  | succ n ih =>
    intro k i h
    simp only [List.range', List.flatMap_cons]
    cases i with
    | zero =>
      simp only [Nat.mul_zero, List.drop_zero, Nat.add_zero]
      exact List.take_left' (hw k)
    | succ i =>
      have hdrop : (f k ++ (List.range' (k + 1) n).flatMap f).drop (w * (i + 1)) =
          ((List.range' (k + 1) n).flatMap f).drop (w * i) := by
        rw [show w * (i + 1) = (f k).length + w * i by rw [hw k]; ring]
        exact List.drop_append (w * i)
      rw [hdrop, show k + (i + 1) = (k + 1) + i by omega]
      exact ih (k + 1) i (by omega)

end Pddb

namespace Pddb

/-! ## Claim theorems -/

/-- Claim C1: losing power at any point between the `Staged` write and the
completion of the `Adopting` transition and then remounting yields either
the fully-old or the fully-new page content, never a mixed or
unauthenticated result; a staged copy is adopted exactly when it passes
authenticated decode and its journal revision strictly exceeds the table's
recorded revision, and a staged copy failing authentication is discarded
with the prior `Clean` state standing. -/
theorem mbbb_crash_safe (ptOld ptNew : List Nat) (revOld revNew : Nat)
    (h : revOld < revNew) :
    (∀ s ∈ crashStates ptOld revOld ptNew revNew,
      mountResolve s = some (ptOld, revOld) ∨ mountResolve s = some (ptNew, revNew))
    ∧ (∀ pt rt ps rs, mountResolve ⟨FlashRec.valid pt rt, FlashRec.valid ps rs⟩ =
        if rt < rs then some (ps, rs) else some (pt, rt))
    ∧ (∀ pt rt, mountResolve ⟨FlashRec.valid pt rt, FlashRec.torn⟩ = some (pt, rt)) := by
  refine ⟨?_, fun pt rt ps rs => rfl, fun pt rt => rfl⟩
  intro s hs
  simp only [crashStates, List.mem_cons, List.not_mem_nil, or_false] at hs
  rcases hs with rfl | rfl | rfl | rfl <;>
    simp [mountResolve, authDecodeRec, h]

/-- Witness for C1 at a concrete injection point: staged copy fully written,
adoption not yet begun. -/
theorem mbbb_crash_safe_witness :
    mountResolve ⟨FlashRec.valid [0] 0, FlashRec.valid [1] 1⟩ = some ([0], 0)
    ∨ mountResolve ⟨FlashRec.valid [0] 0, FlashRec.valid [1] 1⟩ = some ([1], 1) :=
  (mbbb_crash_safe [0] [1] 0 1 (by decide)).1 _ (by decide)

/-- Claim C2: whenever authentication does not succeed — wrong key, free
slot, foreign basis, or corrupted data — `decrypt` returns the single error
`AuthFailure` and `decode` returns `none`; any two failing calls are
indistinguishable, and the failure type has exactly one value. -/
theorem codec_fails_uniformly :
    (∀ r key slot, authOk r key slot = false →
      decrypt r key slot = Except.error AuthFailure.authFailure)
    ∧ (∀ r r' key key' slot slot', authOk r key slot = false →
        authOk r' key' slot' = false → decrypt r key slot = decrypt r' key' slot')
    ∧ (∀ ct key slot, pteAuthOk ct key slot = false → pteDecode ct key slot = none)
    ∧ (∀ ct ct' key key' slot slot', pteAuthOk ct key slot = false →
        pteAuthOk ct' key' slot' = false → pteDecode ct key slot = pteDecode ct' key' slot')
    ∧ (∀ e e' : AuthFailure, e = e') := by
  refine ⟨?_, ?_, ?_, ?_, ?_⟩
  · intro r key slot h; simp [decrypt, h]
  · intro r r' key key' slot slot' h h'; simp [decrypt, h, h']
  · intro ct key slot h; simp [pteDecode, h]
  · intro ct ct' key key' slot slot' h h'; simp [pteDecode, h, h']
  · intro e e'; cases e; cases e'; rfl

/-- Witness for C2: a concrete record with a forged tag fails under key 0
at slot 0, and an undersized ciphertext slot decodes to `none`. -/
theorem codec_fails_uniformly_witness :
    authOk ⟨0, 0, [0], 1⟩ 0 0 = false
    ∧ decrypt ⟨0, 0, [0], 1⟩ 0 0 = Except.error AuthFailure.authFailure
    ∧ pteDecode [] 0 0 = none :=
  ⟨by decide, codec_fails_uniformly.1 ⟨0, 0, [0], 1⟩ 0 0 (by decide),
    codec_fails_uniformly.2.2.1 [] 0 0 (by decide)⟩

/-- Claim C3: for every plaintext of at most `PAGE_SIZE - 32` bytes, every
basis key and every physical slot index, decrypting the record produced by
`encrypt` with the same key and slot index succeeds and returns exactly the
original plaintext and its journal revision. -/
theorem encrypt_decrypt_roundtrip (pt : List Nat) (rev key slot nonce : Nat)
    (_hlen : pt.length ≤ PAGE_SIZE - 32) (hbytes : ∀ b ∈ pt, b < 256)
    (hrev : rev < 2 ^ 32) :
    decrypt (encrypt pt rev key slot nonce) key slot = Except.ok (pt, rev) := by
  have hpt : decWith (ks key nonce) 0 (encWith (ks key nonce) 0 pt) = pt :=
    decWith_encWith _ 0 pt hbytes
  have hk : ksRev key nonce < 2 ^ 32 := Nat.mod_lt _ (by norm_num)
  have hrev2 : ((rev + ksRev key nonce) % 4294967296 + 4294967296 - ksRev key nonce)
      % 4294967296 = rev := by omega
  simp [decrypt, authOk, encrypt, hpt, hrev2]

/-- Witness for C3 at a concrete plaintext, revision, key, slot and nonce. -/
theorem encrypt_decrypt_roundtrip_witness :
    decrypt (encrypt [1, 2, 3] 5 7 9 11) 7 9 = Except.ok ([1, 2, 3], 5) :=
  encrypt_decrypt_roundtrip [1, 2, 3] 5 7 9 11 (by decide) (by decide) (by decide)

/-- Claim C4: an Encrypted Page Record occupies exactly `PAGE_SIZE` bytes
and consists, in order, of a 12-byte plaintext-visible nonce, a 4-byte
encrypted journal revision, an encrypted payload of `PAGE_SIZE - 32` bytes
and a 16-byte authentication tag, so the maximum plaintext payload of one
physical page is `PAGE_SIZE - 32` bytes. -/
theorem encryptedPage_layout :
    (EncryptedPage.fields.map Prod.snd).sum = PAGE_SIZE
    ∧ EncryptedPage.fields =
        [("p_nonce", 12), ("journal_rev", 4), ("data", PAGE_SIZE - 32), ("p_tag", 16)]
    ∧ EncryptedPage.offsetOf "p_nonce" = 0
    ∧ EncryptedPage.offsetOf "journal_rev" = 12
    ∧ EncryptedPage.offsetOf "data" = 16
    ∧ EncryptedPage.offsetOf "p_tag" = PAGE_SIZE - 16
    ∧ PAGE_SIZE - 12 - 16 - 4 = PAGE_SIZE - 32 := by decide

/-- Counterexample to claim C5 as stated: the `Pte` struct does not consist
of exactly the four fields {virtual address, flags, nonce, checksum} — it
carries a fifth, one-byte `reserved` field, so its field-name list differs
from the claimed one and its size is 16 bytes, not 6 + 1 + 4 + 4 = 15. -/
theorem pte_fields_cex :
    Pte.fields.map Prod.fst ≠ ["pddb_addr", "flags", "nonce", "checksum"]
    ∧ (Pte.fields.map Prod.snd).sum ≠ 6 + 1 + 4 + 4 := by decide

/-- Claim C5 (amended): every `Pte` slot contains exactly a 6-byte virtual
address, a one-byte flags field, a one-byte reserved field, a 4-byte
per-slot nonce and a 4-byte weak checksum; the checksum stored by `encode`
is computed over `{virtual address, flags, nonce}` and nothing else, prior
to encryption of the slot. -/
theorem pte_fields_amended :
    Pte.fields =
      [("pddb_addr", 6), ("flags", 1), ("reserved", 1), ("nonce", 4), ("checksum", 4)]
    ∧ (∀ addr flags nonce key slot,
        ((decWith (pteKs key slot) 0 (pteEncode addr flags nonce key slot)).drop 12).take 4
          = bytesLE 4 (checksumOf addr flags nonce)) := by
  refine ⟨rfl, ?_⟩
  intro addr flags nonce key slot
  unfold pteEncode
  rw [decWith_encWith _ 0 _ (serialize_bytes_lt _)]
  exact rfl

/-- Claim C6: evaluation of the `PtFlags` declarations at the failing input.
The `Default` impl of `PtFlags` returns `PtFlags::UNINITIALIZED`, but the
`bitflags!` block declares only `LOCKED = 0x00` and `CLEAN = 0x01`; no
uninitialized/free constant exists for default construction to yield. -/
theorem ptflags_default_undefined :
    PtFlags.lookup "UNINITIALIZED" = none
    ∧ PtFlags.constants.map Prod.fst = ["LOCKED", "CLEAN"]
    ∧ PtFlags.lookup "LOCKED" = some 0
    ∧ PtFlags.lookup "CLEAN" = some 1 := by decide

/-- Claim C7: the on-flash page table is a contiguous fixed-size array of
PTE slots, one per physical page index — slot `i` sits at byte offset
`16 * i` — and its slot count is `PDDB_LEN / PAGE_SIZE`. -/
theorem pageTable_layout (pddbLen : Nat) (table : Nat → Pte) :
    PDDB_SIZE_PAGES pddbLen = pddbLen / PAGE_SIZE
    ∧ (pageTableSerialize pddbLen table).length = PDDB_SIZE_PAGES pddbLen * 16
    ∧ ∀ i, i < PDDB_SIZE_PAGES pddbLen →
        ((pageTableSerialize pddbLen table).drop (16 * i)).take 16
          = Pte.serialize (table i) := by
  have hw : ∀ i, (Pte.serialize (table i)).length = 16 := fun i => pte_serialize_length _
  refine ⟨rfl, ?_, ?_⟩
  · unfold pageTableSerialize
    rw [List.range_eq_range']
    exact flatMap_range'_length _ 16 hw _ _
  · intro i hi
    unfold pageTableSerialize
    rw [List.range_eq_range']
    simpa using flatMap_range'_slice _ 16 hw (PDDB_SIZE_PAGES pddbLen) 0 i hi

/-- Witness for C7: a 65536-byte region gives 16 slots and slot 3 of a
concrete table sits at byte offset 48. -/
theorem pageTable_layout_witness :
    ((pageTableSerialize 65536 (fun _ => ⟨0, 0, 0, 0, 0⟩)).drop 48).take 16
      = Pte.serialize ⟨0, 0, 0, 0, 0⟩ :=
  (pageTable_layout 65536 (fun _ => ⟨0, 0, 0, 0, 0⟩)).2.2 3 (by decide)

/-- Counterexample to claim C8 as stated: the `Pte` per-slot nonce is a
4-byte field, and 32 bits is not at least 96 bits. -/
theorem pte_nonce_width_cex :
    fieldWidth Pte.fields "nonce" = some 4 ∧ ¬ (96 ≤ 8 * 4) := by decide

/-- Claim C8 (amended): the Encrypted Page Record's plaintext-visible nonce
is 12 bytes (96 bits, meeting the ≥ 96-bit recommendation), but the PTE
per-slot nonce is only 4 bytes (32 bits), below 96 bits — the undersizing
the design notes flag as an open risk. -/
theorem nonce_widths :
    fieldWidth EncryptedPage.fields "p_nonce" = some 12 ∧ 96 ≤ 8 * 12
    ∧ fieldWidth Pte.fields "nonce" = some 4 ∧ 8 * 4 < 96 := by decide

/-- Claim C9: `Pte` is packed with no padding — 16 bytes total, with the
6-byte virtual address at offset 0, flags at 6, reserved at 7, the 4-byte
nonce at 8 and the 4-byte checksum at 12. -/
theorem pte_packed_layout (p : Pte) :
    (Pte.serialize p).length = 16
    ∧ (Pte.serialize p).take 6 = bytesLE 6 p.pddb_addr
    ∧ ((Pte.serialize p).drop 6).take 1 = bytesLE 1 p.flags
    ∧ ((Pte.serialize p).drop 7).take 1 = bytesLE 1 p.reserved
    ∧ ((Pte.serialize p).drop 8).take 4 = bytesLE 4 p.nonce
    ∧ (Pte.serialize p).drop 12 = bytesLE 4 p.checksum
    ∧ Pte.fields.map Prod.snd = [6, 1, 1, 4, 4] :=
  ⟨rfl, rfl, rfl, rfl, rfl, rfl, rfl⟩

/-- Witness for C9 at a concrete `Pte` value. -/
theorem pte_packed_layout_witness :
    (Pte.serialize ⟨1, 2, 3, 4, 5⟩).length = 16 :=
  (pte_packed_layout ⟨1, 2, 3, 4, 5⟩).1

/-- Claim C10: `LOCKED` is the all-zero bit pattern while `CLEAN` is bit 0;
every flags value contains `LOCKED`, and a flags byte carrying only
`LOCKED` is bit-for-bit the empty flag value, so the locked state cannot be
distinguished from the empty/free state by any flag-bit test. -/
theorem locked_flag_indistinguishable :
    PtFlags.LOCKED = PtFlags.emptyFlags
    ∧ PtFlags.CLEAN = 1
    ∧ (∀ f : Nat, PtFlags.contains f PtFlags.LOCKED = true)
    ∧ (∀ c : Nat, PtFlags.contains PtFlags.LOCKED c
        = PtFlags.contains PtFlags.emptyFlags c) := by
  refine ⟨rfl, rfl, ?_, fun c => rfl⟩
  intro f
  simp [PtFlags.contains, PtFlags.LOCKED]

end Pddb
